import Mathlib

/-!
Verification of the attendance check-in application (`src/db.ts` and the
application component in `src/components/Scanner.tsx`).

Strings are embedded as `List Char` (the character sequence of a JS string).
Timestamps (`Date` values, compared via `getTime()`) are embedded as `Nat`
milliseconds.  The IndexedDB object store `attendees` (key path `NIK`) is
embedded as a list of records in which the keyed write `put` replaces the
record with the same key in place, or appends.  Asynchronous operations that
either resolve or reject are embedded as `Except String`-valued functions on
an explicit database state; the engine-level failure callbacks (`onerror`)
are environment events outside the program and are not modelled, while the
program's own `if (!db) reject('DB not initialized')` guards are.
-/

/-- The `Attendee` record of `src/types.ts` as used throughout the code:
fields `NIK` (identifier), `Nama` (display name), `timestamp` (check-in
instant, compared numerically via `getTime()`). -/
structure Attendee where
  NIK : List Char
  Nama : List Char
  timestamp : Nat
  deriving DecidableEq, Repr

/-- The module-level state of `src/db.ts`: the `let db` handle (set once
`initDB` has completed) and the contents of the `attendees` object store. -/
structure DBState where
  dbOpen : Bool
  store : List Attendee
  deriving DecidableEq, Repr

/-- IndexedDB `store.put` on an object store with key path `NIK`: upsert —
replaces the record with the same key in place, otherwise inserts. -/
def idbPut (store : List Attendee) (a : Attendee) : List Attendee :=
  if store.any (fun r => r.NIK == a.NIK) then
    store.map (fun r => if r.NIK == a.NIK then a else r)
  else
    store ++ [a]

/-- Embedding of `initDB` from `src/db.ts` (lines 9-35): if `db` is already set it resolves
`true` immediately without reopening; otherwise it opens the database
(schema creation on upgrade) and resolves `true`. -/
def initDB (s : DBState) : DBState × Bool :=
  if s.dbOpen then (s, true)
  else ({ s with dbOpen := true }, true)

/-- Embedding of `addAttendee` from `src/db.ts` (lines 37-55): rejects with
`'DB not initialized'` when `db` is unset, otherwise `put`s the record and
resolves with the record itself. -/
def addAttendee (s : DBState) (a : Attendee) : Except String (DBState × Attendee) :=
  if !s.dbOpen then .error "DB not initialized"
  else .ok ({ s with store := idbPut s.store a }, a)

/-- The comparator of `getAllAttendees` as a sort precondition: `a` may come
before `b` when `b.timestamp - a.timestamp <= 0`, i.e. descending by
timestamp.  (`Array.prototype.sort` is stable; `List.mergeSort` is the
matching stable sort.) -/
def tsDescLe (a b : Attendee) : Bool := decide (b.timestamp ≤ a.timestamp)

/-- Embedding of `getAllAttendees` from `src/db.ts` (lines 57-79): rejects with
`'DB not initialized'` when `db` is unset, otherwise reads every record and
sorts the result by timestamp descending before resolving. -/
def getAllAttendees (s : DBState) : Except String (List Attendee) :=
  if !s.dbOpen then .error "DB not initialized"
  else .ok (s.store.mergeSort tsDescLe)

/-- Embedding of `deleteAttendee` from `src/db.ts` (lines 81-99): rejects with
`'DB not initialized'` when `db` is unset, otherwise issues an IndexedDB
`delete` for the key (which succeeds whether or not the key is present) and
resolves with the key. -/
def deleteAttendee (s : DBState) (nik : List Char) :
    Except String (DBState × List Char) :=
  if !s.dbOpen then .error "DB not initialized"
  else .ok ({ s with store := s.store.filter (fun r => !(r.NIK == nik)) }, nik)

/-- Embedding of `clearAttendees` from `src/db.ts` (lines 101-119): rejects with
`'DB not initialized'` when `db` is unset, otherwise clears the store. -/
def clearAttendees (s : DBState) : Except String DBState :=
  if !s.dbOpen then .error "DB not initialized"
  else .ok { s with store := [] }

/-- The key-uniqueness invariant of the object store (key path `NIK`). -/
def uniqKeys (l : List Attendee) : Prop :=
  l.Pairwise (fun a b => a.NIK ≠ b.NIK)

instance (l : List Attendee) : Decidable (uniqKeys l) :=
  List.instDecidablePairwise l

/-! Application layer (the `App` component in `src/components/Scanner.tsx`) -/

/-- The Duplicate Guard: `attendanceList.some(attendee => attendee.NIK === nik)`
as written in both `handleScanSuccess` (line 256) and `handleManualAdd`
(line 329). -/
def duplicateGuard (list : List Attendee) (nik : List Char) : Bool :=
  list.any (fun a => a.NIK == nik)

/-- The result of `JSON.parse` on a decoded scan payload, as consumed by
`handleScanSuccess`: either parsing throws (`malformed`), or it yields a
value whose `NIK` and `Nama` properties are each either absent/undefined
(`none`) or a string.  A JS string is falsy exactly when empty, so the
code's `!data.NIK || !data.Nama` guard rejects `none` and `some []`. -/
inductive ParsedPayload where
  | malformed : ParsedPayload
  | object (nik : Option (List Char)) (nama : Option (List Char)) : ParsedPayload
  deriving DecidableEq, Repr

/-- Whether a parsed payload is structured data carrying both a `NIK` field
and a `Nama` field. -/
def ParsedPayload.hasBothFields : ParsedPayload → Prop
  | .object (some _) (some _) => True
  | _ => False

instance : DecidablePred ParsedPayload.hasBothFields := by
  intro p
  unfold ParsedPayload.hasBothFields
  match p with
  | .malformed => exact inferInstanceAs (Decidable False)
  | .object none _ => exact inferInstanceAs (Decidable False)
  | .object (some _) none => exact inferInstanceAs (Decidable False)
  | .object (some _) (some _) => exact inferInstanceAs (Decidable True)

/-- Observable outcome of one `handleScanSuccess` invocation.  Each
constructor corresponds to the user-facing notification the code shows:
`invalidPayload` to "Failed to parse QR code…" reached through the catch
block, `duplicate` to "… is already checked in.", `added` to "Welcome, …!",
and `persistFailed` to the catch block entered because `addAttendee`
rejected rather than because parsing failed. -/
inductive ScanOutcome where
  | invalidPayload : ScanOutcome
  | duplicate (nama : List Char) : ScanOutcome
  | added (a : Attendee) : ScanOutcome
  | persistFailed : ScanOutcome
  deriving DecidableEq, Repr

/-- Embedding of `handleScanSuccess` (lines 244-310): parse the payload, require truthy
`NIK` and `Nama`, run the Duplicate Guard against the in-memory list, and
only then `addAttendee` and prepend to the list.  `now` is the `new Date()`
taken at the add.  Returns the outcome with the updated in-memory list and
database state. -/
def handleScanSuccess (list : List Attendee) (db : DBState)
    (payload : ParsedPayload) (now : Nat) :
    ScanOutcome × List Attendee × DBState :=
  match payload with
  | .malformed => (.invalidPayload, list, db)
  | .object nik nama =>
    match nik, nama with
    | some nik, some nama =>
      if nik.isEmpty || nama.isEmpty then (.invalidPayload, list, db)
      else if duplicateGuard list nik then (.duplicate nama, list, db)
      else
        let newAttendee : Attendee := ⟨nik, nama, now⟩
        match addAttendee db newAttendee with
        | .ok (db2, _) => (.added newAttendee, newAttendee :: list, db2)
        | .error _ => (.persistFailed, list, db)
    | _, _ => (.invalidPayload, list, db)

/-- JS `String.prototype.trim`: strip leading and trailing whitespace. -/
def trimList (s : List Char) : List Char :=
  ((s.dropWhile Char.isWhitespace).reverse.dropWhile Char.isWhitespace).reverse

/-- Observable outcome of one `handleManualAdd` invocation: `emptyFields`
is the "Both NIK and Nama are required…" notification, `duplicate` the
"… is already checked in." one, `added` the success path, `persistFailed`
the "Failed to save attendee." catch. -/
inductive ManualOutcome where
  | emptyFields : ManualOutcome
  | duplicate : ManualOutcome
  | added (a : Attendee) : ManualOutcome
  | persistFailed : ManualOutcome
  deriving DecidableEq, Repr

/-- Embedding of `handleManualAdd` (lines 319-349): reject when either trimmed input is
empty, run the Duplicate Guard on the trimmed NIK, and only then persist
the trimmed record and prepend it to the in-memory list. -/
def handleManualAdd (list : List Attendee) (db : DBState)
    (manualNIK manualNama : List Char) (now : Nat) :
    ManualOutcome × List Attendee × DBState :=
  if (trimList manualNIK).isEmpty || (trimList manualNama).isEmpty then
    (.emptyFields, list, db)
  else
    let trimmedNIK := trimList manualNIK
    let trimmedNama := trimList manualNama
    if duplicateGuard list trimmedNIK then (.duplicate, list, db)
    else
      let newAttendee : Attendee := ⟨trimmedNIK, trimmedNama, now⟩
      match addAttendee db newAttendee with
      | .ok (db2, _) => (.added newAttendee, newAttendee :: list, db2)
      | .error _ => (.persistFailed, list, db)

/-! Export (`handleExportCSV`, lines 351-380) -/

/-- The call `attendee.Nama.replace(/"/g, '""')`: double every quote character. -/
def doubleQuotes (s : List Char) : List Char :=
  s.foldr (fun c acc => if c == '"' then '"' :: '"' :: acc else c :: acc) []

/-- The template `` `"${...}"` `` applied to the quote-doubled `Nama`
field (line 362): `replace(/"/g, '""')` then wrap in quotes. -/
def quoteField (s : List Char) : List Char :=
  '"' :: (doubleQuotes s ++ ['"'])

/-- The template `` `"${...}"` `` applied verbatim to the rendered
timestamp (line 363): the code wraps `toLocaleString()` in quotes but
performs no `replace` on that field. -/
def wrapQuotes (s : List Char) : List Char :=
  '"' :: (s ++ ['"'])

/-- The comparator of `handleExportCSV`'s sort:
`a.timestamp.getTime() - b.timestamp.getTime()`, ascending. -/
def tsAscLe (a b : Attendee) : Bool := decide (a.timestamp ≤ b.timestamp)

/-- The header line `headers.join(',')` with `headers = ['NIK', 'Nama', 'Timestamp']`. -/
def csvHeader : List Char := "NIK,Nama,Timestamp".data

/-- One exported row, joined by commas: `attendee.NIK` verbatim, the
quote-doubled and quoted `Nama`, and the rendered timestamp wrapped in
quotes without quote-doubling.  `render` stands for
`Date.prototype.toLocaleString`, whose output is locale- and
environment-dependent. -/
def csvRow (render : Nat → List Char) (a : Attendee) : List Char :=
  a.NIK ++ ',' :: (quoteField a.Nama ++ ',' :: wrapQuotes (render a.timestamp))

/-- Embedding of `handleExportCSV` (lines 351-380): `none` when the list is empty (the
code only shows "No attendees to export."); otherwise the content of the
produced CSV document — header line, then one row per record sorted by
timestamp ascending, lines joined by `'\n'`.  The `data:` URI prefix,
`encodeURI` and the download link are presentation plumbing around this
document and are not part of its content. -/
def handleExportCSV (render : Nat → List Char) (list : List Attendee) :
    Option (List Char) :=
  if list.isEmpty then none
  else
    let sortedAttendees := list.mergeSort tsAscLe
    let rows := sortedAttendees.map (csvRow render)
    some (List.intercalate ['\n'] (csvHeader :: rows))

/-! List Projection (`sortedAndFilteredAttendees`, lines 423-443) -/

/-- Whether `needle` occurs at the start of `hay` (element-wise). -/
def startsWithL (hay needle : List Char) : Bool :=
  match hay, needle with
  | _, [] => true
  | [], _ :: _ => false
  | h :: t, h2 :: t2 => h == h2 && startsWithL t t2

/-- JS `String.prototype.includes`: `needle` occurs contiguously in `hay`. -/
def includesL (hay needle : List Char) : Bool :=
  match hay with
  | [] => needle.isEmpty
  | _ :: t => startsWithL hay needle || includesL t needle

/-- JS `String.prototype.toLowerCase` on the character sequence. -/
def lowerL (s : List Char) : List Char := s.map Char.toLower

/-- The filter predicate of `sortedAndFilteredAttendees`:
`attendee.Nama.toLowerCase().includes(searchQuery.toLowerCase()) ||
 attendee.NIK.toLowerCase().includes(searchQuery.toLowerCase())`. -/
def matchesFilter (searchQuery : List Char) (a : Attendee) : Bool :=
  includesL (lowerL a.Nama) (lowerL searchQuery) ||
    includesL (lowerL a.NIK) (lowerL searchQuery)

/-- The `SortKey` type of the component: `'timestamp' | 'Nama' | 'NIK'`. -/
inductive SortKey where
  | timestamp : SortKey
  | nama : SortKey
  | nik : SortKey
  deriving DecidableEq, Repr

/-- Sort direction: the component's `'asc' | 'desc'` state. -/
inductive SortOrder where
  | asc : SortOrder
  | desc : SortOrder
  deriving DecidableEq, Repr

/-- The `comparison` value computed in the sort callback: `localeCompare`
(abstracted as `loc`, its sign is what matters) for the string keys,
`getTime()` difference for timestamps. -/
def keyComparison (loc : List Char → List Char → Int) (sortKey : SortKey)
    (a b : Attendee) : Int :=
  match sortKey with
  | .nama => loc a.Nama b.Nama
  | .nik => loc a.NIK b.NIK
  | .timestamp => (a.timestamp : Int) - (b.timestamp : Int)

/-- The value returned by the sort callback:
`sortOrder === 'asc' ? comparison : -comparison`. -/
def orderedComparison (loc : List Char → List Char → Int) (sortKey : SortKey)
    (sortOrder : SortOrder) (a b : Attendee) : Int :=
  match sortOrder with
  | .asc => keyComparison loc sortKey a b
  | .desc => -(keyComparison loc sortKey a b)

/-- Embedding of `sortedAndFilteredAttendees` (lines 423-443): filter the in-memory list
case-insensitively over `Nama` and `NIK`, then sort a fresh copy with the
key/direction comparator.  `loc` abstracts `String.prototype.localeCompare`;
`Array.prototype.sort` is stable, matched by `List.mergeSort` on the
"comparator non-positive" precondition. -/
def sortedAndFilteredAttendees (loc : List Char → List Char → Int)
    (attendanceList : List Attendee) (searchQuery : List Char)
    (sortKey : SortKey) (sortOrder : SortOrder) : List Attendee :=
  (attendanceList.filter (matchesFilter searchQuery)).mergeSort
    (fun a b => decide (orderedComparison loc sortKey sortOrder a b ≤ 0))

/-! Helper lemmas (shared). -/

theorem tsDescLe_trans (a b c : Attendee) :
    tsDescLe a b = true → tsDescLe b c = true → tsDescLe a c = true := by
  simp only [tsDescLe, decide_eq_true_eq]
  omega

theorem tsDescLe_total (a b : Attendee) : (tsDescLe a b || tsDescLe b a) = true := by
  simp only [tsDescLe, Bool.or_eq_true, decide_eq_true_eq]
  omega

theorem tsAscLe_trans (a b c : Attendee) :
    tsAscLe a b = true → tsAscLe b c = true → tsAscLe a c = true := by
  simp only [tsAscLe, decide_eq_true_eq]
  omega

theorem tsAscLe_total (a b : Attendee) : (tsAscLe a b || tsAscLe b a) = true := by
  simp only [tsAscLe, Bool.or_eq_true, decide_eq_true_eq]
  omega

/-! Claim C2: GetAll sorts by checkInTime descending. -/

/-- C2: on an opened store, `getAllAttendees` succeeds and the value it
resolves with is the stored record multiset itself (a permutation of the
store contents), arranged in descending `timestamp` order by the operation
before it is returned — for every store content, i.e. every insertion
order. -/
theorem getAllAttendees_sorted_desc (s : DBState) (h : s.dbOpen = true) :
    getAllAttendees s = .ok (s.store.mergeSort tsDescLe) ∧
    (s.store.mergeSort tsDescLe).Perm s.store ∧
    (s.store.mergeSort tsDescLe).Pairwise
      (fun a b => b.timestamp ≤ a.timestamp) := by
  refine ⟨by simp [getAllAttendees, h], List.mergeSort_perm _ _, ?_⟩
  have hs := List.sorted_mergeSort tsDescLe_trans tsDescLe_total s.store
  exact hs.imp (by simp only [tsDescLe, decide_eq_true_eq]; exact fun h => h)

/-- Witness for C2 at a concrete three-record store inserted in a
non-sorted order. -/
theorem getAllAttendees_sorted_desc_witness :
    getAllAttendees ⟨true, [⟨"A1".data, "x".data, 1⟩, ⟨"A2".data, "y".data, 5⟩,
        ⟨"A3".data, "z".data, 3⟩]⟩ =
      .ok ([⟨"A1".data, "x".data, 1⟩, ⟨"A2".data, "y".data, 5⟩,
        ⟨"A3".data, "z".data, 3⟩].mergeSort tsDescLe) ∧
    ([(⟨"A1".data, "x".data, 1⟩ : Attendee), ⟨"A2".data, "y".data, 5⟩,
        ⟨"A3".data, "z".data, 3⟩].mergeSort tsDescLe).Perm
      [⟨"A1".data, "x".data, 1⟩, ⟨"A2".data, "y".data, 5⟩,
        ⟨"A3".data, "z".data, 3⟩] ∧
    ([(⟨"A1".data, "x".data, 1⟩ : Attendee), ⟨"A2".data, "y".data, 5⟩,
        ⟨"A3".data, "z".data, 3⟩].mergeSort tsDescLe).Pairwise
      (fun a b => b.timestamp ≤ a.timestamp) :=
  getAllAttendees_sorted_desc ⟨true, [⟨"A1".data, "x".data, 1⟩,
    ⟨"A2".data, "y".data, 5⟩, ⟨"A3".data, "z".data, 3⟩]⟩ rfl

/-! Claim C5: scan payloads lacking NIK or Nama are rejected. -/

/-- C5: whenever the decoded scan payload is not structured data carrying
both a `NIK` and a `Nama` field, `handleScanSuccess` surfaces the
invalid-payload error and neither the in-memory list nor the database
state changes — in particular `addAttendee` is never reached. -/
theorem handleScanSuccess_invalid_payload (list : List Attendee) (db : DBState)
    (payload : ParsedPayload) (now : Nat) (h : ¬ payload.hasBothFields) :
    handleScanSuccess list db payload now = (.invalidPayload, list, db) := by
  match payload with
  | .malformed => rfl
  | .object none none => rfl
  | .object none (some _) => rfl
  | .object (some _) none => rfl
  | .object (some _) (some _) => exact absurd trivial h

/-- Witness for C5: the spec's example payload, JSON text
`"NIK":"123"` with no `Nama` field, is rejected with the invalid-payload
outcome and leaves list and store untouched. -/
theorem handleScanSuccess_invalid_payload_witness :
    handleScanSuccess [] ⟨true, []⟩ (.object (some "123".data) none) 7 =
      (.invalidPayload, [], ⟨true, []⟩) :=
  handleScanSuccess_invalid_payload [] ⟨true, []⟩
    (.object (some "123".data) none) 7 (by decide)

/-! Claim C6: operations on an unopened store fail with NotInitialized. -/

/-- C6: when the store has not been opened (the `db` handle is unset),
`addAttendee`, `getAllAttendees`, `deleteAttendee` and `clearAttendees`
all reject with the `'DB not initialized'` error instead of touching
storage. -/
theorem ops_require_init (s : DBState) (a : Attendee) (nik : List Char)
    (h : s.dbOpen = false) :
    addAttendee s a = .error "DB not initialized" ∧
    getAllAttendees s = .error "DB not initialized" ∧
    deleteAttendee s nik = .error "DB not initialized" ∧
    clearAttendees s = .error "DB not initialized" := by
  refine ⟨?_, ?_, ?_, ?_⟩ <;>
    simp [addAttendee, getAllAttendees, deleteAttendee, clearAttendees, h]

/-- Witness for C6 on the fresh unopened state. -/
theorem ops_require_init_witness :
    addAttendee ⟨false, []⟩ ⟨"A1".data, "Jane".data, 0⟩ =
      .error "DB not initialized" ∧
    getAllAttendees ⟨false, []⟩ = .error "DB not initialized" ∧
    deleteAttendee ⟨false, []⟩ "A1".data = .error "DB not initialized" ∧
    clearAttendees ⟨false, []⟩ = .error "DB not initialized" :=
  ops_require_init ⟨false, []⟩ ⟨"A1".data, "Jane".data, 0⟩ "A1".data rfl

/-! Claim C8: Open/Initialize is idempotent. -/

/-- C8: when the database handle is already set, `initDB` resolves `true`
immediately and the whole state — handle and store contents — is exactly
the state before the call: nothing is reopened or altered. -/
theorem initDB_idempotent (s : DBState) (h : s.dbOpen = true) :
    initDB s = (s, true) := by
  simp [initDB, h]

/-- Witness for C8 on an opened one-record state. -/
theorem initDB_idempotent_witness :
    initDB ⟨true, [⟨"A1".data, "Jane".data, 0⟩]⟩ =
      (⟨true, [⟨"A1".data, "Jane".data, 0⟩]⟩, true) :=
  initDB_idempotent ⟨true, [⟨"A1".data, "Jane".data, 0⟩]⟩ rfl

/-! Claim C9: deleting an absent identifier is a successful no-op. -/

/-- C9: on an opened store holding no record keyed by `nik`,
`deleteAttendee` resolves successfully with the key, the state after the
delete is exactly the state before it, and consequently `getAllAttendees`
afterwards returns exactly what it returned before. -/
theorem deleteAttendee_absent_noop (s : DBState) (nik : List Char)
    (hopen : s.dbOpen = true) (habs : ∀ r ∈ s.store, r.NIK ≠ nik) :
    deleteAttendee s nik = .ok (s, nik) ∧
    getAllAttendees
        (DBState.mk s.dbOpen (s.store.filter (fun r => !(r.NIK == nik)))) =
      getAllAttendees s := by
  have hfilter : s.store.filter (fun r => !(r.NIK == nik)) = s.store := by
    rw [List.filter_eq_self]
    intro r hr
    simpa using habs r hr
  obtain ⟨o, st⟩ := s
  simp only at hopen hfilter
  subst hopen
  constructor
  · simp [deleteAttendee, hfilter]
  · simp only [hfilter]

/-- Witness for C9: deleting `"A2"` from a store holding only `"A1"`. -/
theorem deleteAttendee_absent_noop_witness :
    deleteAttendee ⟨true, [⟨"A1".data, "Jane".data, 0⟩]⟩ "A2".data =
      .ok (⟨true, [⟨"A1".data, "Jane".data, 0⟩]⟩, "A2".data) ∧
    getAllAttendees ⟨true, [Attendee.mk "A1".data "Jane".data 0].filter
        (fun r => !(r.NIK == "A2".data))⟩ =
      getAllAttendees ⟨true, [⟨"A1".data, "Jane".data, 0⟩]⟩ :=
  deleteAttendee_absent_noop ⟨true, [⟨"A1".data, "Jane".data, 0⟩]⟩ "A2".data
    rfl (by decide)


/-! Claim C1: Put stores by key, visible in GetAll, upsert semantics. -/

theorem idbPut_mem_self (store : List Attendee) (a : Attendee) :
    a ∈ idbPut store a := by
  unfold idbPut
  split
  · rename_i hany
    obtain ⟨r, hr, hkey⟩ := List.any_eq_true.mp hany
    exact List.mem_map.mpr ⟨r, hr, by simp [hkey]⟩
  · exact List.mem_append_right _ (List.mem_singleton.mpr rfl)

theorem idbPut_uniqKeys (store : List Attendee) (a : Attendee)
    (h : uniqKeys store) : uniqKeys (idbPut store a) := by
  unfold idbPut
  split
  · refine List.Pairwise.map _ ?_ h
    intro x y hxy
    by_cases hx : x.NIK == a.NIK
    · by_cases hy : y.NIK == a.NIK
      · rw [beq_iff_eq] at hx hy
        exact absurd (hx.trans hy.symm) hxy
      · rw [if_pos hx, if_neg hy]
        intro hc
        exact hy (beq_iff_eq.mpr hc.symm)
    · by_cases hy : y.NIK == a.NIK
      · rw [if_neg hx, if_pos hy]
        intro hc
        exact hx (beq_iff_eq.mpr hc)
      · rw [if_neg hx, if_neg hy]
        exact hxy
  · rename_i hany
    rw [uniqKeys, List.pairwise_append]
    refine ⟨h, List.pairwise_singleton _ _, ?_⟩
    intro x hx y hy
    rw [List.mem_singleton] at hy
    subst hy
    intro hc
    exact hany (List.any_eq_true.mpr ⟨x, hx, beq_iff_eq.mpr hc⟩)

theorem idbPut_keeps_others (store : List Attendee) (a r : Attendee)
    (hr : r ∈ store) (hne : r.NIK ≠ a.NIK) : r ∈ idbPut store a := by
  unfold idbPut
  split
  · refine List.mem_map.mpr ⟨r, hr, ?_⟩
    rw [if_neg]
    intro hc
    exact hne (beq_iff_eq.mp hc)
  · exact List.mem_append_left _ hr

theorem uniqKeys_eq_of_key (l : List Attendee) (h : uniqKeys l) :
    ∀ x ∈ l, ∀ y ∈ l, x.NIK = y.NIK → x = y := by
  induction l with
  | nil =>
    intro x hx
    exact absurd hx (List.not_mem_nil x)
  | cons hd tl ih =>
    rw [uniqKeys, List.pairwise_cons] at h
    intro x hx y hy hkey
    rcases List.mem_cons.mp hx with hx1 | hx2 <;>
      rcases List.mem_cons.mp hy with hy1 | hy2
    · rw [hx1, hy1]
    · subst hx1
      exact absurd hkey (h.1 y hy2)
    · subst hy1
      exact absurd hkey.symm (h.1 x hx2)
    · exact ih h.2 x hx2 y hy2 hkey

/-- C1: on an opened store whose contents satisfy the key-uniqueness
invariant, `addAttendee` succeeds, resolves with the record it was given,
and the resulting store (i) still satisfies key uniqueness, (ii) contains
the new record — so a subsequent `getAllAttendees` lists it —, (iii) keeps
every record with a different identifier, and (iv) holds the new record as
the unique record under its identifier: any previously stored record with
the same identifier but different contents (for example a different
`Nama`) is gone, replaced in place rather than duplicated. -/
theorem addAttendee_upsert (s : DBState) (a : Attendee)
    (hopen : s.dbOpen = true) (huniq : uniqKeys s.store) :
    addAttendee s a = .ok (DBState.mk s.dbOpen (idbPut s.store a), a) ∧
    uniqKeys (idbPut s.store a) ∧
    a ∈ idbPut s.store a ∧
    (∀ r ∈ s.store, r.NIK ≠ a.NIK → r ∈ idbPut s.store a) ∧
    (∀ r ∈ idbPut s.store a, r.NIK = a.NIK → r = a) ∧
    (∀ p ∈ s.store, p.NIK = a.NIK → p ≠ a → p ∉ idbPut s.store a) ∧
    getAllAttendees (DBState.mk s.dbOpen (idbPut s.store a)) =
      .ok ((idbPut s.store a).mergeSort tsDescLe) ∧
    a ∈ (idbPut s.store a).mergeSort tsDescLe := by
  have huniq' := idbPut_uniqKeys s.store a huniq
  have hmem := idbPut_mem_self s.store a
  have hunique_key : ∀ r ∈ idbPut s.store a, r.NIK = a.NIK → r = a :=
    fun r hr hkey => uniqKeys_eq_of_key _ huniq' r hr a hmem hkey
  refine ⟨by simp [addAttendee, hopen], huniq', hmem,
    fun r hr hne => idbPut_keeps_others s.store a r hr hne,
    hunique_key, ?_, by simp [getAllAttendees, hopen], ?_⟩
  · intro p _ hpkey hpa hpmem
    exact hpa (hunique_key p hpmem hpkey)
  · exact ((List.mergeSort_perm (idbPut s.store a) tsDescLe).mem_iff).mpr hmem

/-- Witness for C1: putting a record for key `"A001"` with a new
display name over a store already holding a different record under
`"A001"` and an unrelated record under `"B"`; the prior `"A001"` record
is replaced, not duplicated, and the new record appears in GetAll. -/
theorem addAttendee_upsert_witness :
    addAttendee ⟨true, [⟨"A001".data, "Jane".data, 1⟩, ⟨"B".data, "Bob".data, 2⟩]⟩
        ⟨"A001".data, "Janet".data, 3⟩ =
      .ok (DBState.mk true
        (idbPut [⟨"A001".data, "Jane".data, 1⟩, ⟨"B".data, "Bob".data, 2⟩]
          ⟨"A001".data, "Janet".data, 3⟩), ⟨"A001".data, "Janet".data, 3⟩) ∧
    (⟨"A001".data, "Janet".data, 3⟩ : Attendee) ∈
      idbPut [⟨"A001".data, "Jane".data, 1⟩, ⟨"B".data, "Bob".data, 2⟩]
        ⟨"A001".data, "Janet".data, 3⟩ ∧
    (⟨"B".data, "Bob".data, 2⟩ : Attendee) ∈
      idbPut [⟨"A001".data, "Jane".data, 1⟩, ⟨"B".data, "Bob".data, 2⟩]
        ⟨"A001".data, "Janet".data, 3⟩ ∧
    (⟨"A001".data, "Jane".data, 1⟩ : Attendee) ∉
      idbPut [⟨"A001".data, "Jane".data, 1⟩, ⟨"B".data, "Bob".data, 2⟩]
        ⟨"A001".data, "Janet".data, 3⟩ ∧
    (⟨"A001".data, "Janet".data, 3⟩ : Attendee) ∈
      (idbPut [⟨"A001".data, "Jane".data, 1⟩, ⟨"B".data, "Bob".data, 2⟩]
        ⟨"A001".data, "Janet".data, 3⟩).mergeSort tsDescLe := by
  have h := addAttendee_upsert
    ⟨true, [⟨"A001".data, "Jane".data, 1⟩, ⟨"B".data, "Bob".data, 2⟩]⟩
    ⟨"A001".data, "Janet".data, 3⟩ rfl (by decide)
  exact ⟨h.1, h.2.2.1,
    h.2.2.2.1 ⟨"B".data, "Bob".data, 2⟩ (by decide) (by decide),
    h.2.2.2.2.2.1 ⟨"A001".data, "Jane".data, 1⟩ (by decide) (by decide)
      (by decide),
    h.2.2.2.2.2.2.2⟩

/-! Claim C3: the Duplicate Guard and the two ingestion paths. -/

/-- C3: the Duplicate Guard returns `true` exactly when some record of the
working set carries the candidate identifier; and whenever it fires on
either ingestion path — the scan handler with a well-formed payload, or the
manual handler with non-empty trimmed fields — the handler reports the
duplicate notification and returns the in-memory list and the database
state unchanged: `addAttendee` is never reached. -/
theorem duplicateGuard_correct (list : List Attendee) (db : DBState)
    (nik nama manualNIK manualNama : List Char) (now : Nat) :
    (duplicateGuard list nik = true ↔ ∃ a ∈ list, a.NIK = nik) ∧
    (nik ≠ [] → nama ≠ [] → duplicateGuard list nik = true →
      handleScanSuccess list db (.object (some nik) (some nama)) now =
        (.duplicate nama, list, db)) ∧
    (trimList manualNIK ≠ [] → trimList manualNama ≠ [] →
      duplicateGuard list (trimList manualNIK) = true →
      handleManualAdd list db manualNIK manualNama now =
        (.duplicate, list, db)) := by
  refine ⟨?_, ?_, ?_⟩
  · simp [duplicateGuard, List.any_eq_true, beq_iff_eq]
  · intro h1 h2 h3
    have e1 : nik.isEmpty = false := by simpa using h1
    have e2 : nama.isEmpty = false := by simpa using h2
    simp [handleScanSuccess, e1, e2, h3]
  · intro h1 h2 h3
    have e1 : (trimList manualNIK).isEmpty = false := by simpa using h1
    have e2 : (trimList manualNama).isEmpty = false := by simpa using h2
    simp [handleManualAdd, e1, e2, h3]

/-- Witness for C3 at the spec's example working set
`[(id "A001", name "Jane")]`: checking `"A001"` fires the guard, checking
`"A002"` does not, and both ingestion paths leave list and store untouched
on the duplicate. -/
theorem duplicateGuard_correct_witness :
    duplicateGuard [⟨"A001".data, "Jane".data, 0⟩] "A001".data = true ∧
    duplicateGuard [⟨"A001".data, "Jane".data, 0⟩] "A002".data = false ∧
    handleScanSuccess [⟨"A001".data, "Jane".data, 0⟩] ⟨true, []⟩
        (.object (some "A001".data) (some "Jane".data)) 5 =
      (.duplicate "Jane".data, [⟨"A001".data, "Jane".data, 0⟩], ⟨true, []⟩) ∧
    handleManualAdd [⟨"A001".data, "Jane".data, 0⟩] ⟨true, []⟩
        " A001 ".data "Janet".data 5 =
      (.duplicate, [⟨"A001".data, "Jane".data, 0⟩], ⟨true, []⟩) := by
  have h := duplicateGuard_correct [⟨"A001".data, "Jane".data, 0⟩] ⟨true, []⟩
    "A001".data "Jane".data " A001 ".data "Janet".data 5
  have h2 := duplicateGuard_correct [⟨"A001".data, "Jane".data, 0⟩] ⟨true, []⟩
    "A002".data "Jane".data " A001 ".data "Janet".data 5
  refine ⟨h.1.mpr ⟨⟨"A001".data, "Jane".data, 0⟩, by decide, rfl⟩, ?_,
    h.2.1 (by decide) (by decide) ?_, h.2.2 ?_ ?_ ?_⟩
  · have := mt h2.1.mp (by decide)
    simpa using this
  · exact h.1.mpr ⟨⟨"A001".data, "Jane".data, 0⟩, by decide, rfl⟩
  · decide
  · decide
  · have hg := (duplicateGuard_correct [⟨"A001".data, "Jane".data, 0⟩]
      ⟨true, []⟩ (trimList " A001 ".data) "Jane".data " A001 ".data
      "Janet".data 5).1
    exact hg.mpr ⟨⟨"A001".data, "Jane".data, 0⟩, by decide, by decide⟩

/-! Claim C10: manual entry trims and validates both fields. -/

theorem trimList_eq_nil_iff (s : List Char) :
    trimList s = [] ↔ ∀ c ∈ s, c.isWhitespace := by
  unfold trimList
  rw [List.reverse_eq_nil_iff, List.dropWhile_eq_nil_iff]
  constructor
  · intro h c hc
    rw [← List.takeWhile_append_dropWhile (p := Char.isWhitespace) (l := s)]
      at hc
    rcases List.mem_append.mp hc with h1 | h1
    · exact List.mem_takeWhile_imp h1
    · exact h c (List.mem_reverse.mpr h1)
  · intro h c hc
    exact h c ((List.dropWhile_sublist _).subset (List.mem_reverse.mp hc))

/-- C10: `handleManualAdd` (i) rejects without touching list or store
whenever either input trims to empty — that is, is empty or all
whitespace —, (ii) checks the Duplicate Guard against the *trimmed*
identifier and rejects duplicates without touching list or store, and
(iii) every record it does add carries exactly the trimmed identifier and
trimmed display name, both non-empty, prepended to the in-memory list. -/
theorem handleManualAdd_trims_validates (list : List Attendee) (db : DBState)
    (manualNIK manualNama : List Char) (now : Nat) :
    ((trimList manualNIK = [] ∨ trimList manualNama = []) →
      handleManualAdd list db manualNIK manualNama now =
        (.emptyFields, list, db)) ∧
    (trimList manualNIK ≠ [] → trimList manualNama ≠ [] →
      duplicateGuard list (trimList manualNIK) = true →
      handleManualAdd list db manualNIK manualNama now =
        (.duplicate, list, db)) ∧
    (∀ a list' db', handleManualAdd list db manualNIK manualNama now =
        (.added a, list', db') →
      a.NIK = trimList manualNIK ∧ a.Nama = trimList manualNama ∧
      a.NIK ≠ [] ∧ a.Nama ≠ [] ∧ list' = a :: list) ∧
    (trimList manualNIK = [] ↔ ∀ c ∈ manualNIK, c.isWhitespace) := by
  refine ⟨?_, ?_, ?_, trimList_eq_nil_iff manualNIK⟩
  · intro h
    rcases h with h | h <;> simp [handleManualAdd, h]
  · intro h1 h2 h3
    have e1 : (trimList manualNIK).isEmpty = false := by simpa using h1
    have e2 : (trimList manualNama).isEmpty = false := by simpa using h2
    simp [handleManualAdd, e1, e2, h3]
  · intro a list' db' h
    simp only [handleManualAdd] at h
    by_cases hempty :
        ((trimList manualNIK).isEmpty || (trimList manualNama).isEmpty) = true
    · rw [if_pos hempty] at h
      exact absurd (congrArg Prod.fst h) (by simp)
    · rw [if_neg hempty] at h
      rw [Bool.or_eq_true, not_or] at hempty
      obtain ⟨he1, he2⟩ := hempty
      by_cases hdup : duplicateGuard list (trimList manualNIK) = true
      · rw [if_pos hdup] at h
        exact absurd (congrArg Prod.fst h) (by simp)
      · rw [if_neg hdup] at h
        rcases haddv : addAttendee db ⟨trimList manualNIK,
            trimList manualNama, now⟩ with v | ⟨db2, a2⟩
        · rw [haddv] at h
          exact absurd (congrArg Prod.fst h) (by simp)
        · rw [haddv] at h
          simp only [Prod.mk.injEq, ManualOutcome.added.injEq] at h
          obtain ⟨ha, hl, hd⟩ := h
          subst ha hl hd
          refine ⟨rfl, rfl, ?_, ?_, rfl⟩
          · simpa using he1
          · simpa using he2

/-- Witness for C10: an all-whitespace NIK is rejected with nothing
written, and an add with padded inputs `"  A1 "` / `" Jane  "` produces
exactly the trimmed, non-empty record prepended to the list. -/
theorem handleManualAdd_trims_validates_witness :
    handleManualAdd [] ⟨true, []⟩ "   ".data "Jane".data 5 =
      (.emptyFields, [], ⟨true, []⟩) ∧
    (Attendee.mk "A1".data "Jane".data 5).NIK = trimList "  A1 ".data ∧
    (Attendee.mk "A1".data "Jane".data 5).Nama = trimList " Jane  ".data ∧
    (Attendee.mk "A1".data "Jane".data 5).NIK ≠ [] := by
  have h := handleManualAdd_trims_validates [] ⟨true, []⟩ "   ".data
    "Jane".data 5
  have h2 := handleManualAdd_trims_validates [] ⟨true, []⟩ "  A1 ".data
    " Jane  ".data 5
  have h3 := h2.2.2.1 ⟨"A1".data, "Jane".data, 5⟩
    [⟨"A1".data, "Jane".data, 5⟩] ⟨true, [⟨"A1".data, "Jane".data, 5⟩]⟩
    (by decide)
  exact ⟨h.1 (Or.inl (by decide)), h3.1, h3.2.1, h3.2.2.1⟩

/-! Claim C4: the CSV export.  The code quote-doubles and quotes only the
`Nama` field, wraps the rendered `Timestamp` in quotes with no
quote-doubling, and emits `NIK` verbatim, so the claim that every string
field is quoted with quote-doubling fails; the amended statement below
records what the code produces. -/

/-- C4 counterexample: exporting the single record with identifier `Jo"`
produces a document whose identifier field is the raw text `Jo"` —
unquoted, embedded quote not doubled — and not the `"Jo"""` the claim
(every string field quoted with quote-doubling) would require. -/
theorem handleExportCSV_claim_counterexample :
    handleExportCSV (fun _ => "T".data) [⟨"Jo\"".data, "X".data, 0⟩] =
      some "NIK,Nama,Timestamp\nJo\",\"X\",\"T\"".data ∧
    handleExportCSV (fun _ => "T".data) [⟨"Jo\"".data, "X".data, 0⟩] ≠
      some (csvHeader ++ '\n' :: (quoteField "Jo\"".data ++
        ',' :: (quoteField "X".data ++ ',' :: quoteField "T".data))) := by
  have h1 : handleExportCSV (fun _ => "T".data) [⟨"Jo\"".data, "X".data, 0⟩] =
      some (List.intercalate ['\n'] (csvHeader ::
        [csvRow (fun _ => "T".data) ⟨"Jo\"".data, "X".data, 0⟩])) := by
    simp [handleExportCSV, List.mergeSort_singleton]
  refine ⟨?_, ?_⟩ <;> rw [h1] <;> decide

/-- C4 amended: for every non-empty record set the export is the fixed
three-column header followed by one row per record, the rows ordered
ascending by `timestamp` (a stable sort of the record set); within a row
the `Nama` field is quoted with embedded quote characters doubled
(`Jo"hn` serializes as `"Jo""hn"`), the rendered `Timestamp` field is
wrapped in quotes with no quote-doubling (a rendered `T"` serializes as
`"T""`, not `"T"""`), and the `NIK` field is emitted verbatim,
unquoted. -/
theorem handleExportCSV_amended (render : Nat → List Char)
    (list : List Attendee) (h : list ≠ []) :
    handleExportCSV render list =
      some (List.intercalate ['\n']
        (csvHeader :: (list.mergeSort tsAscLe).map (csvRow render))) ∧
    (list.mergeSort tsAscLe).Perm list ∧
    (list.mergeSort tsAscLe).Pairwise (fun a b => a.timestamp ≤ b.timestamp) ∧
    quoteField "Jo\"hn".data = "\"Jo\"\"hn\"".data ∧
    wrapQuotes "T\"".data = "\"T\"\"".data ∧
    wrapQuotes "T\"".data ≠ quoteField "T\"".data := by
  have e : list.isEmpty = false := by simpa using h
  refine ⟨by simp [handleExportCSV, e], List.mergeSort_perm _ _, ?_,
    by decide, by decide, by decide⟩
  have hs := List.sorted_mergeSort tsAscLe_trans tsAscLe_total list
  exact hs.imp (by simp only [tsAscLe, decide_eq_true_eq]; exact fun h => h)

/-- Witness for C4 (amended) at a concrete two-record set given in
timestamp-descending order with a quote character in one name. -/
theorem handleExportCSV_amended_witness :
    handleExportCSV (fun t => if t == 2 then "T2".data else "T1".data)
        [⟨"A2".data, "Jo\"hn".data, 2⟩, ⟨"A1".data, "X".data, 1⟩] =
      some (List.intercalate ['\n'] (csvHeader ::
        ([(⟨"A2".data, "Jo\"hn".data, 2⟩ : Attendee),
          ⟨"A1".data, "X".data, 1⟩].mergeSort tsAscLe).map
            (csvRow (fun t => if t == 2 then "T2".data else "T1".data)))) ∧
    ([(⟨"A2".data, "Jo\"hn".data, 2⟩ : Attendee),
        ⟨"A1".data, "X".data, 1⟩].mergeSort tsAscLe).Perm
      [⟨"A2".data, "Jo\"hn".data, 2⟩, ⟨"A1".data, "X".data, 1⟩] ∧
    ([(⟨"A2".data, "Jo\"hn".data, 2⟩ : Attendee),
        ⟨"A1".data, "X".data, 1⟩].mergeSort tsAscLe).Pairwise
      (fun a b => a.timestamp ≤ b.timestamp) ∧
    quoteField "Jo\"hn".data = "\"Jo\"\"hn\"".data ∧
    wrapQuotes "T\"".data = "\"T\"\"".data ∧
    wrapQuotes "T\"".data ≠ quoteField "T\"".data :=
  handleExportCSV_amended (fun t => if t == 2 then "T2".data else "T1".data)
    [⟨"A2".data, "Jo\"hn".data, 2⟩, ⟨"A1".data, "X".data, 1⟩] (by decide)

/-! Claim C7: the List Projection. -/

theorem includesL_nil (hay : List Char) : includesL hay [] = true := by
  cases hay <;> simp [includesL, startsWithL]

theorem matchesFilter_nil (a : Attendee) : matchesFilter [] a = true := by
  simp [matchesFilter, lowerL, includesL_nil]

theorem orderedComparison_trans (loc : List Char → List Char → Int)
    (sortKey : SortKey) (sortOrder : SortOrder)
    (hasym : ∀ x y, loc y x = -loc x y)
    (htrans : ∀ x y z, loc x y ≤ 0 → loc y z ≤ 0 → loc x z ≤ 0) :
    ∀ a b c : Attendee,
      decide (orderedComparison loc sortKey sortOrder a b ≤ 0) = true →
      decide (orderedComparison loc sortKey sortOrder b c ≤ 0) = true →
      decide (orderedComparison loc sortKey sortOrder a c ≤ 0) = true := by
  intro a b c h1 h2
  simp only [decide_eq_true_eq] at h1 h2 ⊢
  cases sortKey <;> cases sortOrder <;>
    simp only [orderedComparison, keyComparison] at h1 h2 ⊢
  · omega
  · omega
  · exact htrans _ _ _ h1 h2
  · have e1 := hasym a.Nama b.Nama
    have e2 := hasym b.Nama c.Nama
    have e3 := hasym a.Nama c.Nama
    have h3 := htrans c.Nama b.Nama a.Nama (by omega) (by omega)
    omega
  · exact htrans _ _ _ h1 h2
  · have e1 := hasym a.NIK b.NIK
    have e2 := hasym b.NIK c.NIK
    have e3 := hasym a.NIK c.NIK
    have h3 := htrans c.NIK b.NIK a.NIK (by omega) (by omega)
    omega

theorem orderedComparison_total (loc : List Char → List Char → Int)
    (sortKey : SortKey) (sortOrder : SortOrder)
    (hasym : ∀ x y, loc y x = -loc x y) :
    ∀ a b : Attendee,
      (decide (orderedComparison loc sortKey sortOrder a b ≤ 0) ||
        decide (orderedComparison loc sortKey sortOrder b a ≤ 0)) = true := by
  intro a b
  simp only [Bool.or_eq_true, decide_eq_true_eq]
  cases sortKey <;> cases sortOrder <;>
    simp only [orderedComparison, keyComparison]
  · omega
  · omega
  · have := hasym a.Nama b.Nama
    omega
  · have := hasym a.Nama b.Nama
    omega
  · have := hasym a.NIK b.NIK
    omega
  · have := hasym a.NIK b.NIK
    omega

/-- C7: the List Projection returns a fresh sequence that is a permutation
of (exactly) the records of the source list whose `Nama` or `NIK` contains
the filter text case-insensitively; the empty filter matches every record;
and the sequence is ordered by the requested key and direction — by
numeric timestamp for the `timestamp` key, by the locale comparator (any
consistent comparator `loc`: antisymmetric in sign and transitive) for the
two string keys, negated for descending.  The source list itself is an
input and is never modified. -/
theorem sortedAndFilteredAttendees_spec (loc : List Char → List Char → Int)
    (attendanceList : List Attendee) (searchQuery : List Char)
    (sortKey : SortKey) (sortOrder : SortOrder)
    (hasym : ∀ x y, loc y x = -loc x y)
    (htrans : ∀ x y z, loc x y ≤ 0 → loc y z ≤ 0 → loc x z ≤ 0) :
    (sortedAndFilteredAttendees loc attendanceList searchQuery sortKey
      sortOrder).Perm (attendanceList.filter (matchesFilter searchQuery)) ∧
    (∀ a, a ∈ sortedAndFilteredAttendees loc attendanceList searchQuery
        sortKey sortOrder ↔
      a ∈ attendanceList ∧ matchesFilter searchQuery a = true) ∧
    (∀ a : Attendee, matchesFilter [] a = true) ∧
    (sortedAndFilteredAttendees loc attendanceList searchQuery sortKey
      sortOrder).Pairwise
        (fun a b => orderedComparison loc sortKey sortOrder a b ≤ 0) := by
  refine ⟨List.mergeSort_perm _ _, ?_, fun a => matchesFilter_nil a, ?_⟩
  · intro a
    rw [sortedAndFilteredAttendees, (List.mergeSort_perm _ _).mem_iff,
      List.mem_filter]
  · have hs := List.sorted_mergeSort
      (orderedComparison_trans loc sortKey sortOrder hasym htrans)
      (orderedComparison_total loc sortKey sortOrder hasym)
      (attendanceList.filter (matchesFilter searchQuery))
    exact hs.imp (by simp only [decide_eq_true_eq]; exact fun h => h)

/-- Witness for C7 at the spec's example — records
`[(A1, Jane, t=2), (A2, Alan, t=1)]`, filter `"jan"`, sort by name
ascending — with the concrete consistent comparator that compares lengths:
the projection is a permutation of the filtered records (here exactly the
`Jane` record, which it contains), and the empty filter matches a record
the non-empty filter excludes. -/
theorem sortedAndFilteredAttendees_spec_witness :
    (sortedAndFilteredAttendees (fun x y => (x.length : Int) - y.length)
        [⟨"A1".data, "Jane".data, 2⟩, ⟨"A2".data, "Alan".data, 1⟩]
        "jan".data .nama .asc).Perm
      ([⟨"A1".data, "Jane".data, 2⟩, ⟨"A2".data, "Alan".data, 1⟩].filter
        (matchesFilter "jan".data)) ∧
    (⟨"A1".data, "Jane".data, 2⟩ : Attendee) ∈
      sortedAndFilteredAttendees (fun x y => (x.length : Int) - y.length)
        [⟨"A1".data, "Jane".data, 2⟩, ⟨"A2".data, "Alan".data, 1⟩]
        "jan".data .nama .asc ∧
    matchesFilter [] (⟨"A2".data, "Alan".data, 1⟩ : Attendee) = true := by
  have h := sortedAndFilteredAttendees_spec
    (fun x y => (x.length : Int) - y.length)
    [⟨"A1".data, "Jane".data, 2⟩, ⟨"A2".data, "Alan".data, 1⟩]
    "jan".data .nama .asc
    (by intro x y; dsimp only; omega)
    (by intro x y z h1 h2; dsimp only at h1 h2 ⊢; omega)
  exact ⟨h.1, (h.2.1 _).mpr ⟨by decide, by decide⟩, h.2.2.1 _⟩
